import Mathlib

/-!
Shallow embedding of the kgateway transformation engine
(`internal/envoyinit/transformations/src/{lib.rs, jinja.rs}` and the
emptiness checks of `internal/envoyinit/rustformations/src/http_simple_mutations.rs`).

Modelling conventions:
* Rust `String`/`&str` values are Lean `String`s; the byte length of a string
  (`str::len()`) is the sum of the UTF-8 sizes of its characters.
* `usize` values are `Nat`s; where the Rust code can overflow a `usize`
  (release-mode wrapping), the wrap at `2^64` is made explicit.
* `serde_json::Value` is the inductive `Json`; `minijinja::Value` is modelled
  by `Json` as well (the orchestrator only ever stores serialisable data in
  the context, and `lookup_header` deserialises the context value back into a
  string-to-string map, which corresponds to a `Json.obj` of `Json.str`s).
* A compiled minijinja template is abstracted as a `Template`: its source
  text, the result of `undeclared_variables(true)`, and its evaluation
  function on a context (minijinja itself is an external library; the claims
  under verification only depend on the orchestration around it).
* The `TransformationOps` host trait is split into an oracle `Host` (the
  results the host returns to the two read operations) and a trace of issued
  operations `Op`; `transform_request` / `transform_response` return the
  ordered list of host operations they issue together with their
  `Result<()>`.
* Fallible Rust code returns `Except`; a Rust panic is modelled as `none` of
  an `Option`-returning function.
-/

namespace Transformations

/-- Json models `serde_json::Value` (and the serialisable fragment of
`minijinja::Value` that the orchestrator puts into the render context). -/
inductive Json where
  | null : Json
  | bool : Bool → Json
  | num : Int → Json
  | str : String → Json
  | arr : List Json → Json
  | obj : List (String × Json) → Json

/-- isNull models the `json_body != JsonValue::Null` test. -/
def Json.isNull : Json → Bool
  | .null => true
  | _ => false

/-- isObj is true exactly on `JsonValue::Object` values. -/
def Json.isObj : Json → Bool
  | .obj _ => true
  | _ => false

/-- listIsPre needle hay decides whether needle occurs at the front of hay. -/
def listIsPre : List Char → List Char → Bool
  | [], _ => true
  | _ :: _, [] => false
  | a :: as, b :: bs => a == b && listIsPre as bs

/-- listHasInfix needle hay decides whether needle occurs contiguously
anywhere in hay. -/
def listHasInfix (needle : List Char) : List Char → Bool
  | [] => listIsPre needle []
  | c :: cs => listIsPre needle (c :: cs) || listHasInfix needle cs

/-- strContains hay needle models Rust `hay.contains(needle)` (substring
containment; byte-level and character-level containment agree on valid
UTF-8). -/
def strContains (hay needle : String) : Bool :=
  listHasInfix needle.data hay.data

/-- charsByteLen is the UTF-8 byte length of a character list. -/
def charsByteLen (cs : List Char) : Nat :=
  (cs.map Char.utf8Size).sum

/-- byteLen models Rust `str::len()`: the UTF-8 byte length of the string. -/
def byteLen (s : String) : Nat :=
  charsByteLen s.data

/-! ## Configuration data model (`lib.rs`) -/

/-- BodyParseBehavior mirrors `enum BodyParseBehavior { AsString, AsJson }`
(`AsString` is the serde default). -/
inductive BodyParseBehavior where
  | AsString : BodyParseBehavior
  | AsJson : BodyParseBehavior

/-- BodyTransform mirrors `struct BodyTransform { parse_as, value }`. -/
structure BodyTransform where
  parse_as : BodyParseBehavior
  value : String

/-- NameValuePair mirrors `struct NameValuePair { name, value }`. -/
structure NameValuePair where
  name : String
  value : String

/-- LocalTransform mirrors
`struct LocalTransform { add, set, remove, body }`. -/
structure LocalTransform where
  add : List NameValuePair
  set : List NameValuePair
  remove : List String
  body : Option BodyTransform

/-- BodyTransform.is_empty is translated from `BodyTransform::is_empty` in
`lib.rs`: true iff the template value is empty and parse_as is `AsString`. -/
def BodyTransform.is_empty (b : BodyTransform) : Bool :=
  if b.value = "" then
    match b.parse_as with
    | .AsString => true
    | .AsJson => false
  else false

/-- LocalTransform.is_empty is translated from `LocalTransform::is_empty` in
`lib.rs`. -/
def LocalTransform.is_empty (t : LocalTransform) : Bool :=
  t.add.isEmpty && t.set.isEmpty && t.remove.isEmpty &&
    (match t.body with
     | some c => c.is_empty
     | none => true)

/-- has_transform is translated from `Filter::has_request_transform` /
`Filter::has_response_transform` in `http_simple_mutations.rs`: with the
per-route/global resolution abstracted into the `Option`, it returns false
when no transform is configured and otherwise `!transform.is_empty()`. -/
def has_transform : Option LocalTransform → Bool
  | none => false
  | some t => !t.is_empty

/-! ## The jinja environment model (`jinja.rs`) -/

/-- STATE_LOOKUP_KEY_BODY is the reserved context key for the raw body. -/
def STATE_LOOKUP_KEY_BODY : String := "body.dev.kgateway"

/-- STATE_LOOKUP_KEY_CONTEXT is the reserved context key for the whole
parsed JSON body. -/
def STATE_LOOKUP_KEY_CONTEXT : String := "context.dev.kgateway"

/-- STATE_LOOKUP_KEY_HEADERS is the reserved context key for the
current-message headers map. -/
def STATE_LOOKUP_KEY_HEADERS : String := "headers.dev.kgateway"

/-- STATE_LOOKUP_KEY_REQ_HEADERS is the reserved context key for the request
headers map. -/
def STATE_LOOKUP_KEY_REQ_HEADERS : String := "request_headers.dev.kgateway"

/-- REQUEST_BODY_TEMPLATE_LOOKUP_KEY is the registry key of the request body
template. -/
def REQUEST_BODY_TEMPLATE_LOOKUP_KEY : String := "request_body_0"

/-- RESPONSE_BODY_TEMPLATE_LOOKUP_KEY is the registry key of the response
body template. -/
def RESPONSE_BODY_TEMPLATE_LOOKUP_KEY : String := "response_body_0"

/-- Ctx models the rendering context: the map `m` of context keys to values
built by the orchestrator (`HashMap<String, minijinja::Value>` /
`BTreeMap<…>` in the source). It is an association list with
first-match lookup; `insertKV` prepends, so a later insert shadows an
earlier binding exactly as a map insert replaces it. -/
def Ctx := List (String × Json)

/-- insertKV models a map insert on the rendering context. -/
def insertKV (m : Ctx) (k : String) (v : Json) : Ctx :=
  (k, v) :: m

/-- ctxLookup models `State::lookup` of a context key during rendering. -/
def ctxLookup (m : Ctx) (k : String) : Option Json :=
  List.lookup k m

/-- headersJson models `minijinja::Value::from_serialize(&HashMap<String,
String>)`: a JSON object all of whose values are strings. -/
def headersJson (h : List (String × String)) : Json :=
  .obj (h.map fun p => (p.1, .str p.2))

/-- Template abstracts one compiled minijinja template: its source text, the
variables reported by `Template::undeclared_variables(true)`, and its
runtime evaluation against a context (`Template::render`), which either
produces a string or fails with a (stringly) runtime error. -/
structure Template where
  text : String
  undeclared : List String
  eval : Ctx → Except String String

/-- JinjaEnv models the pre-compiled template registry of
`minijinja::Environment` (built by `create_env_with_templates`), keyed
exactly as in the source: header templates under their own text, body
templates under the two reserved keys. -/
structure JinjaEnv where
  templates : List (String × Template)

/-- getTemplate models `Environment::get_template`. -/
def JinjaEnv.getTemplate (env : JinjaEnv) (key : String) : Option Template :=
  List.lookup key env.templates

/-- GLOBALS_LOOKUP is the set of function names registered on the
environment by `new_jinja_env` (the contents of the `GLOBALS_LOOKUP` lazy
static; the handful of minijinja built-in globals that would additionally
appear in `ENV.globals()` are an external-library detail none of the claims
depend on). -/
def GLOBALS_LOOKUP : List String :=
  ["env", "substring", "base64_encode", "base64url_encode", "base64_decode",
   "base64url_decode", "replace_with_random", "replace_with_string",
   "raw_string", "header", "request_header", "body", "context"]

/-- RenderErr models the error side of the `anyhow::Result` values flowing
through the engine: the single distinguished
`TransformationError::UndeclaredJsonVariables` variant (recognised by
downcast in the orchestrator), and every other anyhow error collapsed to
its formatted causal chain. -/
inductive RenderErr where
  | undeclaredJsonVariables : String → RenderErr
  | other : String → RenderErr
deriving DecidableEq

/-- decEqExcept makes result values comparable by `decide` in concrete
witnesses. -/
instance decEqExcept {ε α : Type} [DecidableEq ε] [DecidableEq α] :
    DecidableEq (Except ε α) := fun x y =>
  match x, y with
  | .ok a, .ok b =>
    if h : a = b then .isTrue (by rw [h]) else .isFalse (by simp [h])
  | .error a, .error b =>
    if h : a = b then .isTrue (by rw [h]) else .isFalse (by simp [h])
  | .ok _, .error _ => .isFalse (by simp)
  | .error _, .ok _ => .isFalse (by simp)

/-- hasNonGlobalUndeclared is the condition checked by the loop in `render`:
some reported undeclared variable is not a registered function name. -/
def hasNonGlobalUndeclared (tmpl : Template) : Bool :=
  tmpl.undeclared.any fun v => !(GLOBALS_LOOKUP.contains v)

/-- undeclaredMsg models the message
`format!("{:?} from template {}", undeclared_variables, template)`. -/
def undeclaredMsg (vars : List String) (template : String) : String :=
  toString vars ++ " from template " ++ template

/-- render is translated from `render` in `jinja.rs`: empty template text is
a fast path to the empty string; then the template is looked up; then, when
`parsed_body_as_json` is false, the undeclared-variable gate rejects the
template with `UndeclaredJsonVariables` if any reported undeclared variable
is not a registered function name; otherwise the template is evaluated, a
runtime failure being wrapped as a generic (non-gating) error. -/
def render (env : JinjaEnv) (ctx : Ctx) (templateKey template : String)
    (parsed_body_as_json : Bool) : Except RenderErr String :=
  if template = "" then .ok ""
  else
    match env.getTemplate templateKey with
    | none => .error (.other ("error looking up jinja template " ++ template))
    | some tmpl =>
      if !parsed_body_as_json && hasNonGlobalUndeclared tmpl then
        .error (.undeclaredJsonVariables (undeclaredMsg tmpl.undeclared template))
      else
        match tmpl.eval ctx with
        | .ok s => .ok s
        | .error e =>
          .error (.other ("error rendering jinja template " ++ template ++ ":" ++ e))

/-- chainStr models joining one anyhow error's causal chain with ":" inside
`combine_errors` (the chain of the distinguished error displays as
`undeclared json variables: …`). -/
def chainStr : RenderErr → String
  | .undeclaredJsonVariables m => "undeclared json variables: " ++ m
  | .other m => m

/-- combine_errors is translated from `combine_errors` in `jinja.rs`. -/
def combine_errors (msg : String) (errors : List RenderErr) :
    Except RenderErr Unit :=
  if errors.isEmpty then .ok ()
  else
    .error (.other (msg ++ ": " ++ String.intercalate "; " (errors.map chainStr)))

/-! ## The substring template function (`jinja.rs`, lines 41-55)

Rust's `&input[start..end]` panics when the range is invalid (start > end or
end > len) or when either index does not fall on a UTF-8 character boundary,
and `start + len` is `usize` arithmetic (wrapping at `2^64` in release
builds; a debug build already panics on the overflow itself). The model
therefore returns `Option String`, `none` standing for a panic. -/

/-- USIZE_WRAP is the modulus of 64-bit `usize` arithmetic. -/
def USIZE_WRAP : Nat := 2 ^ 64

/-- USIZE_MAX models `usize::MAX` (the value of
`u64::MAX.try_into().unwrap()` on a 64-bit target). -/
def USIZE_MAX : Nat := 2 ^ 64 - 1

/-- dropBytes cs n skips exactly n bytes of the UTF-8 encoding of cs,
returning the remaining characters, or `none` when n does not fall on a
character boundary (or exceeds the total byte length). -/
def dropBytes : List Char → Nat → Option (List Char)
  | cs, 0 => some cs
  | [], _ + 1 => none
  | c :: cs, n + 1 =>
    if c.utf8Size ≤ n + 1 then dropBytes cs (n + 1 - c.utf8Size) else none

/-- takeBytes cs n takes exactly the first n bytes of the UTF-8 encoding of
cs, or `none` when n does not fall on a character boundary (or exceeds the
total byte length). -/
def takeBytes : List Char → Nat → Option (List Char)
  | _, 0 => some []
  | [], _ + 1 => none
  | c :: cs, n + 1 =>
    if c.utf8Size ≤ n + 1 then (takeBytes cs (n + 1 - c.utf8Size)).map (c :: ·)
    else none

/-- byteSlice models the Rust slice expression `&s[a..b]`: `none` is the
panic on an inverted range, an out-of-range end, or an index that is not a
character boundary. -/
def byteSlice (s : String) (a b : Nat) : Option String :=
  if a ≤ b then
    match dropBytes s.data a with
    | none => none
    | some rest =>
      match takeBytes rest (b - a) with
      | none => none
      | some cs => some (String.mk cs)
  else none

/-- substring is translated from `substring` in `jinja.rs`: `input.len()` is
the byte length; `start >= input_len` short-circuits to the empty string;
with a third argument, `end` becomes `start + len` (wrapping `usize`
addition) whenever that sum is at most the byte length; finally the byte
range `input[start..end]` is taken, `none` modelling the panic of the Rust
indexing operation. -/
def substring (input : String) (start : Nat) (len : Option Nat) :
    Option String :=
  let input_len := byteLen input
  if start ≥ input_len then some ""
  else
    let endIdx :=
      match len with
      | some l =>
        if (start + l) % USIZE_WRAP ≤ input_len then (start + l) % USIZE_WRAP
        else input_len
      | none => input_len
    byteSlice input start endIdx

/-! ## Header lookup template functions (`jinja.rs`, lines 57-81) -/

/-- deserializeStringMap models
`<HashMap<String, String>>::deserialize(value)`: it succeeds exactly on a
JSON-like map value all of whose entries are strings. -/
def deserializeStringMap : Json → Option (List (String × String))
  | .obj fields =>
    fields.foldr
      (fun kv acc =>
        match kv.2, acc with
        | .str s, some l => some ((kv.1, s) :: l)
        | _, _ => none)
      (some [])
  | _ => none

/-- strToLower models Rust `str::to_lowercase` on its ASCII fragment
(`Char.toLower` lowercases exactly the characters A-Z; Rust additionally
lowercases non-ASCII letters, which none of the claims concern). -/
def strToLower (s : String) : String :=
  String.mk (s.data.map Char.toLower)

/-- lookup_header is translated from `lookup_header` in `jinja.rs`: a missing
context value or one that does not deserialise into a string-to-string map
yields the empty string; otherwise the queried key is lowercased and looked
up verbatim in the map, absence again yielding the empty string. -/
def lookup_header (headers : Option Json) (key : String) : String :=
  match headers with
  | none => ""
  | some v =>
    match deserializeStringMap v with
    | none => ""
    | some header_map =>
      let lowercase_key := strToLower key
      (List.lookup lowercase_key header_map).getD ""

/-- header is translated from `header` in `jinja.rs`: lookup of the
current-message headers slot of the render context, then `lookup_header`. -/
def header (state : Ctx) (key : String) : String :=
  lookup_header (ctxLookup state STATE_LOOKUP_KEY_HEADERS) key

/-- request_header is translated from `request_header` in `jinja.rs`. -/
def request_header (state : Ctx) (key : String) : String :=
  lookup_header (ctxLookup state STATE_LOOKUP_KEY_REQ_HEADERS) key

/-! ## The transform orchestrator (`jinja.rs`, lines 280-602)

`transform_request` and `transform_response` are textually identical up to
(a) which headers map is bound to the current-message headers slot, (b) the
body-template registry key, (c) the label passed to `combine_errors`, and
(d) whether the issued operations are the `*_request_*` or `*_response_*`
methods of `TransformationOps`. The shared body is `transformCore`; the
operation constructors are side-neutral and denote the request-flavoured
host calls inside `transform_request` and the response-flavoured ones inside
`transform_response`. -/

/-- Op is one issued host operation (one call through the
`TransformationOps` trait, in issue order). -/
inductive Op where
  | parseJsonBody : Op
  | getBody : Op
  | drainBody : Nat → Op
  | appendBody : String → Op
  | setHeader : String → String → Op
  | addHeader : String → String → Op
  | removeHeader : String → Op
deriving DecidableEq

/-- Host is the oracle for the two read operations of the host interface:
the outcome of `parse_*_json_body` and the (UTF-8-lossy decoded) bytes
returned by `get_*_body`. -/
structure Host where
  parseJsonResult : Except String Json
  rawBody : String

/-- initialCtx models lines 288-299 / 452-463: the context map seeded with
the current-message headers and the request headers. -/
def initialCtx (cur req : List (String × String)) : Ctx :=
  insertKV (insertKV [] STATE_LOOKUP_KEY_HEADERS (headersJson cur))
    STATE_LOOKUP_KEY_REQ_HEADERS (headersJson req)

/-- jsonSetup is translated from lines 300-322 / 464-485: when a body
transform with `AsJson` is configured, the body is parsed through the host
(a parse failure propagating immediately with the `?` operator); a non-null
parse result sets `parsed_body_as_json`, binds the whole value under the
reserved context key when the body template textually contains
`"context()"`, and, only when the value is an object, inserts its top-level
fields as context keys. The returned list is the trace of host operations
issued by this phase. -/
def jsonSetup (t : LocalTransform) (m0 : Ctx) (host : Host) :
    Except (RenderErr × List Op) (Ctx × Bool × List Op) :=
  match t.body with
  | none => .ok (m0, false, [])
  | some bt =>
    match bt.parse_as with
    | .AsString => .ok (m0, false, [])
    | .AsJson =>
      match host.parseJsonResult with
      | .error e => .error (.other e, [.parseJsonBody])
      | .ok json_body =>
        if json_body.isNull then .ok (m0, false, [.parseJsonBody])
        else
          let m1 :=
            if strContains bt.value "context()" then
              insertKV m0 STATE_LOOKUP_KEY_CONTEXT json_body
            else m0
          let m2 :=
            match json_body with
            | .obj fields => fields.foldl (fun m kv => insertKV m kv.1 kv.2) m1
            | _ => m1
          .ok (m2, true, [.parseJsonBody])

/-- bodySetup is translated from lines 324-332 / 487-495: when the body
template textually contains `"body()"`, the raw body is fetched from the
host and bound (UTF-8-lossy) under the reserved context key. -/
def bodySetup (t : LocalTransform) (m : Ctx) (host : Host) : Ctx × List Op :=
  match t.body with
  | none => (m, [])
  | some bt =>
    if strContains bt.value "body()" then
      (insertKV m STATE_LOOKUP_KEY_BODY (.str host.rawBody), [.getBody])
    else (m, [])

/-- bodyRewrite is translated from lines 336-368 / 499-534: with a non-empty
body template, the existing body is drained, the template is rendered, and
either the content-length header is set to the decimal byte length of the
non-empty rendered string and the rendered bytes appended, or (empty render
or any render failure, the failure being recorded) content-length is set to
"0" and the content-type header removed. -/
def bodyRewrite (env : JinjaEnv) (ctx : Ctx) (parsed_body_as_json : Bool)
    (t : LocalTransform) (bodyKey : String) : List Op × List RenderErr :=
  match t.body with
  | none => ([], [])
  | some bt =>
    if bt.value = "" then ([], [])
    else
      match render env ctx bodyKey bt.value parsed_body_as_json with
      | .ok s =>
        if s = "" then
          ([.drainBody USIZE_MAX, .setHeader "content-length" "0",
            .removeHeader "content-type"], [])
        else
          ([.drainBody USIZE_MAX,
            .setHeader "content-length" (toString (byteLen s)),
            .appendBody s], [])
      | .error e =>
        ([.drainBody USIZE_MAX, .setHeader "content-length" "0",
          .removeHeader "content-type"], [e])

/-- setStep is one iteration of the `set` loop (lines 371-401 / 537-567): an
empty template removes the header without rendering; otherwise the template
is rendered (registry key = template text) — an `UndeclaredJsonVariables`
failure aborts the whole orchestration with exactly that error (the Rust
code pushes it and immediately pops it back as the return value), any other
failure is recorded and the header removed, a non-empty rendered string is
set as the header value, and an empty one removes the header. -/
def setStep (env : JinjaEnv) (ctx : Ctx) (flag : Bool) (p : NameValuePair) :
    Except RenderErr (List Op × Option RenderErr) :=
  if p.value = "" then .ok ([.removeHeader p.name], none)
  else
    match render env ctx p.value p.value flag with
    | .ok s =>
      if s = "" then .ok ([.removeHeader p.name], none)
      else .ok ([.setHeader p.name s], none)
    | .error (.undeclaredJsonVariables m) => .error (.undeclaredJsonVariables m)
    | .error (.other m) => .ok ([.removeHeader p.name], some (.other m))

/-- addStep is one iteration of the `add` loop (lines 403-429 / 569-595):
an empty template is skipped; an `UndeclaredJsonVariables` failure aborts;
any other failure is recorded with no operation issued; a non-empty rendered
string is added as a header; an empty rendered string adds nothing. -/
def addStep (env : JinjaEnv) (ctx : Ctx) (flag : Bool) (p : NameValuePair) :
    Except RenderErr (List Op × Option RenderErr) :=
  if p.value = "" then .ok ([], none)
  else
    match render env ctx p.value p.value flag with
    | .ok s =>
      if s = "" then .ok ([], none)
      else .ok ([.addHeader p.name s], none)
    | .error (.undeclaredJsonVariables m) => .error (.undeclaredJsonVariables m)
    | .error (.other m) => .ok ([], some (.other m))

/-- LoopOut is the outcome of one of the two header loops: the issued
operations plus recorded recoverable errors, or an abort carrying the
operations issued before the aborting entry and the distinguished error
returned to the caller. -/
inductive LoopOut where
  | ok : List Op → List RenderErr → LoopOut
  | abort : List Op → RenderErr → LoopOut
deriving DecidableEq

/-- runLoop folds a per-entry step over the entry list, accumulating issued
operations and recorded errors and stopping at the first aborting entry. -/
def runLoop (step : NameValuePair → Except RenderErr (List Op × Option RenderErr)) :
    List NameValuePair → LoopOut
  | [] => .ok [] []
  | p :: rest =>
    match step p with
    | .error e => .abort [] e
    | .ok (ops, errOpt) =>
      match runLoop step rest with
      | .abort ops' e => .abort (ops ++ ops') e
      | .ok ops' errs => .ok (ops ++ ops') (errOpt.toList ++ errs)

/-- setLoop is the `set` loop of the orchestrator. -/
def setLoop (env : JinjaEnv) (ctx : Ctx) (flag : Bool)
    (entries : List NameValuePair) : LoopOut :=
  runLoop (setStep env ctx flag) entries

/-- addLoop is the `add` loop of the orchestrator. -/
def addLoop (env : JinjaEnv) (ctx : Ctx) (flag : Bool)
    (entries : List NameValuePair) : LoopOut :=
  runLoop (addStep env ctx flag) entries

/-- transformCore is the common body of `transform_request` and
`transform_response`: context construction, body rewrite, `set` loop, `add`
loop, unconditional `remove` loop, and final error aggregation. It returns
the ordered trace of issued host operations together with the function's
`Result<()>`. -/
def transformCore (env : JinjaEnv) (t : LocalTransform)
    (cur req : List (String × String)) (bodyKey label : String)
    (host : Host) : List Op × Except RenderErr Unit :=
  let m0 := initialCtx cur req
  match jsonSetup t m0 host with
  | .error (e, tr) => (tr, .error e)
  | .ok (m1, flag, tr1) =>
    let (ctx, tr2) := bodySetup t m1 host
    let (tr3, errs3) := bodyRewrite env ctx flag t bodyKey
    match setLoop env ctx flag t.set with
    | .abort tr4 e => (tr1 ++ tr2 ++ tr3 ++ tr4, .error e)
    | .ok tr4 errs4 =>
      match addLoop env ctx flag t.add with
      | .abort tr5 e => (tr1 ++ tr2 ++ tr3 ++ tr4 ++ tr5, .error e)
      | .ok tr5 errs5 =>
        (tr1 ++ tr2 ++ tr3 ++ tr4 ++ tr5 ++ t.remove.map Op.removeHeader,
         combine_errors label (errs3 ++ errs4 ++ errs5))

/-- transform_request is translated from `transform_request` in `jinja.rs`:
both headers slots of the context are the request headers map, the body
template key is `request_body_0`, and the issued operations are the
request-flavoured host calls. -/
def transform_request (env : JinjaEnv) (t : LocalTransform)
    (request_headers_map : List (String × String)) (host : Host) :
    List Op × Except RenderErr Unit :=
  transformCore env t request_headers_map request_headers_map
    REQUEST_BODY_TEMPLATE_LOOKUP_KEY "transform_request()" host

/-- transform_response is translated from `transform_response` in
`jinja.rs`: the current-message headers slot is the response headers map,
the request-headers slot the request headers map, the body template key is
`response_body_0`, and the issued operations are the response-flavoured
host calls. -/
def transform_response (env : JinjaEnv) (t : LocalTransform)
    (request_headers_map response_headers_map : List (String × String))
    (host : Host) : List Op × Except RenderErr Unit :=
  transformCore env t response_headers_map request_headers_map
    RESPONSE_BODY_TEMPLATE_LOOKUP_KEY "transform_response()" host

/-! ## Side-indexed view of the two orchestration entry points -/

/-- Side selects one of the two orchestration entry points. -/
inductive Side where
  | request : Side
  | response : Side

/-- curHeaders is the headers map bound to the current-message slot for a
given side. -/
def curHeaders : Side → List (String × String) → List (String × String) →
    List (String × String)
  | .request, rh, _ => rh
  | .response, _, resp => resp

/-- bodyKeyOf is the body-template registry key of a side. -/
def bodyKeyOf : Side → String
  | .request => REQUEST_BODY_TEMPLATE_LOOKUP_KEY
  | .response => RESPONSE_BODY_TEMPLATE_LOOKUP_KEY

/-- labelOf is the `combine_errors` label of a side. -/
def labelOf : Side → String
  | .request => "transform_request()"
  | .response => "transform_response()"

/-- runTransform dispatches to `transform_request` or `transform_response`;
claims quantified over a `Side` are therefore statements about exactly
these two public entry points. -/
def runTransform : Side → JinjaEnv → LocalTransform →
    List (String × String) → List (String × String) → Host →
    List Op × Except RenderErr Unit
  | .request, env, t, rh, _, host => transform_request env t rh host
  | .response, env, t, rh, resp, host => transform_response env t rh resp host

/-- ctxFlagTrace packages the whole context-construction phase of a side:
`none` when the JSON body parse fails, otherwise the final render context,
the `parsed_body_as_json` flag, and the trace of host operations issued
while building the context. -/
def ctxFlagTrace (t : LocalTransform) (cur req : List (String × String))
    (host : Host) : Option (Ctx × Bool × List Op) :=
  match jsonSetup t (initialCtx cur req) host with
  | .error _ => none
  | .ok (m1, flag, tr1) =>
    let (ctx, tr2) := bodySetup t m1 host
    some (ctx, flag, tr1 ++ tr2)

/-! ## Generic lemmas about the header loops -/

/-- stepOps is the list of operations a non-aborting entry issues. -/
def stepOps (step : NameValuePair → Except RenderErr (List Op × Option RenderErr))
    (p : NameValuePair) : List Op :=
  match step p with
  | .ok out => out.1
  | .error _ => []

theorem runLoop_ok_ops (step : NameValuePair → Except RenderErr (List Op × Option RenderErr)) :
    ∀ (entries : List NameValuePair) (ops : List Op) (errs : List RenderErr),
      runLoop step entries = .ok ops errs → ops = entries.flatMap (stepOps step)
  | [], ops, errs, h => by
    simp only [runLoop] at h
    cases h
    simp
  | p :: rest, ops, errs, h => by
    simp only [runLoop] at h
    cases hp : step p with
    | error e => rw [hp] at h; cases h
    | ok out =>
      rw [hp] at h
      cases hrest : runLoop step rest with
      | abort ops' e => rw [hrest] at h; cases h
      | ok ops' errs' =>
        rw [hrest] at h
        cases h
        have ih := runLoop_ok_ops step rest ops' errs' hrest
        simp [List.flatMap_cons, stepOps, hp, ih]

theorem runLoop_abort (step : NameValuePair → Except RenderErr (List Op × Option RenderErr)) :
    ∀ (pre : List NameValuePair) (p : NameValuePair) (post : List NameValuePair)
      (e : RenderErr),
      (∀ q ∈ pre, ∃ out, step q = .ok out) → step p = .error e →
      runLoop step (pre ++ p :: post) = .abort (pre.flatMap (stepOps step)) e
  | [], p, post, e, _, hp => by
    simp only [List.nil_append, runLoop, hp, List.flatMap_nil]
  | q :: pre, p, post, e, hpre, hp => by
    obtain ⟨out, hq⟩ := hpre q (by simp)
    have ih := runLoop_abort step pre p post e
      (fun r hr => hpre r (by simp [hr])) hp
    simp only [List.cons_append, runLoop, hq, List.append_eq] at ih ⊢
    rw [ih]
    simp [List.flatMap_cons, stepOps, hq]

theorem runTransform_eq (side : Side) (env : JinjaEnv) (t : LocalTransform)
    (rh resp : List (String × String)) (host : Host) :
    runTransform side env t rh resp host =
      transformCore env t (curHeaders side rh resp) rh (bodyKeyOf side)
        (labelOf side) host := by
  cases side <;> rfl

theorem transformCore_of_ctx (env : JinjaEnv) (t : LocalTransform)
    (cur req : List (String × String)) (bodyKey label : String) (host : Host)
    (ctx : Ctx) (flag : Bool) (tr0 : List Op)
    (h0 : ctxFlagTrace t cur req host = some (ctx, flag, tr0)) :
    transformCore env t cur req bodyKey label host =
      (match setLoop env ctx flag t.set with
       | .abort tr4 e => (tr0 ++ (bodyRewrite env ctx flag t bodyKey).1 ++ tr4, .error e)
       | .ok tr4 errs4 =>
         match addLoop env ctx flag t.add with
         | .abort tr5 e =>
           (tr0 ++ (bodyRewrite env ctx flag t bodyKey).1 ++ tr4 ++ tr5, .error e)
         | .ok tr5 errs5 =>
           (tr0 ++ (bodyRewrite env ctx flag t bodyKey).1 ++ tr4 ++ tr5
              ++ t.remove.map Op.removeHeader,
            combine_errors label ((bodyRewrite env ctx flag t bodyKey).2 ++ errs4 ++ errs5))) := by
  simp only [ctxFlagTrace] at h0
  cases hjs : jsonSetup t (initialCtx cur req) host with
  | error e => rw [hjs] at h0; cases h0
  | ok res =>
    obtain ⟨m1, flag1, tr1⟩ := res
    rw [hjs] at h0
    simp only at h0
    cases hb : bodySetup t m1 host with
    | mk ctx2 tr2 =>
      rw [hb] at h0
      simp only [Option.some.injEq, Prod.mk.injEq] at h0
      obtain ⟨hctx, hflag, htr⟩ := h0
      subst hctx hflag htr
      simp only [transformCore, hjs, hb]

/-! ## Per-entry step facts -/

theorem setStep_ok_of_noUndeclared (env : JinjaEnv) (ctx : Ctx) (flag : Bool)
    (p : NameValuePair)
    (h : ∀ m, render env ctx p.value p.value flag ≠
      .error (.undeclaredJsonVariables m)) :
    ∃ out, setStep env ctx flag p = .ok out := by
  simp only [setStep]
  by_cases hv : p.value = ""
  · simp [hv]
  · simp only [hv, if_false]
    cases hr : render env ctx p.value p.value flag with
    | ok s => by_cases hs : s = "" <;> simp [hs]
    | error e =>
      cases e with
      | undeclaredJsonVariables m => exact absurd hr (h m)
      | other m => simp

theorem setStep_err_of_undeclared (env : JinjaEnv) (ctx : Ctx) (flag : Bool)
    (p : NameValuePair) (msg : String)
    (h : render env ctx p.value p.value flag =
      .error (.undeclaredJsonVariables msg)) :
    setStep env ctx flag p = .error (.undeclaredJsonVariables msg) := by
  have hv : p.value ≠ "" := by
    intro hv
    rw [hv] at h
    simp [render] at h
  simp only [setStep, hv, if_false, h]

theorem addStep_ok_of_noUndeclared (env : JinjaEnv) (ctx : Ctx) (flag : Bool)
    (p : NameValuePair)
    (h : ∀ m, render env ctx p.value p.value flag ≠
      .error (.undeclaredJsonVariables m)) :
    ∃ out, addStep env ctx flag p = .ok out := by
  simp only [addStep]
  by_cases hv : p.value = ""
  · simp [hv]
  · simp only [hv, if_false]
    cases hr : render env ctx p.value p.value flag with
    | ok s => by_cases hs : s = "" <;> simp [hs]
    | error e =>
      cases e with
      | undeclaredJsonVariables m => exact absurd hr (h m)
      | other m => simp

theorem addStep_err_of_undeclared (env : JinjaEnv) (ctx : Ctx) (flag : Bool)
    (p : NameValuePair) (msg : String)
    (h : render env ctx p.value p.value flag =
      .error (.undeclaredJsonVariables msg)) :
    addStep env ctx flag p = .error (.undeclaredJsonVariables msg) := by
  have hv : p.value ≠ "" := by
    intro hv
    rw [hv] at h
    simp [render] at h
  simp only [addStep, hv, if_false, h]

/-! ## Concrete fixtures used by the witnesses -/

/-- tmplVarFoo is a compiled template whose static inspection reports the
undeclared variable `foo` (not a registered function name). -/
def tmplVarFoo : Template := ⟨"T_needs_json_foo", ["foo"], fun _ => .ok "evalresult"⟩

/-- tmplSuper is a compiled control-flow template with no undeclared
variables that evaluates to `supersuper`. -/
def tmplSuper : Template := ⟨"T_supersuper", [], fun _ => .ok "supersuper"⟩

/-- tmplBodyHello is a compiled body template with no undeclared variables
that evaluates to `hello`. -/
def tmplBodyHello : Template := ⟨"T_body_hello", [], fun _ => .ok "hello"⟩

/-- envW is a concrete template registry fixture. -/
def envW : JinjaEnv :=
  ⟨[("T_needs_json_foo", tmplVarFoo), ("T_supersuper", tmplSuper),
    ("request_body_0", tmplBodyHello)]⟩

/-- hostNull is a host whose JSON parse yields null (no body). -/
def hostNull : Host := ⟨.ok .null, "rawbody"⟩

/-- hostArr is a host whose JSON parse yields a non-null, non-object
value. -/
def hostArr : Host := ⟨.ok (.arr [.num 1]), "rawbody"⟩

/-- ctxNil is the context built from empty request and response headers. -/
def ctxNil : Ctx := initialCtx [] []

/-! ## C2 -/

/-- C2: for every non-empty template (resolvable in the registry) and
context, `render` with `parsed_body_as_json = false` fails with the
`UndeclaredJsonVariables` error iff the template has at least one
undeclared variable that is not a registered function name; in that case
the error value is computed from the variable list and template text alone
(the template is not evaluated); when every undeclared variable is a
registered function name the template is evaluated normally. -/
theorem render_json_gate (env : JinjaEnv) (ctx : Ctx) (key template : String)
    (tmpl : Template) (hne : template ≠ "")
    (hlook : env.getTemplate key = some tmpl) :
    ((∃ m, render env ctx key template false =
        .error (.undeclaredJsonVariables m)) ↔ hasNonGlobalUndeclared tmpl = true)
  ∧ (hasNonGlobalUndeclared tmpl = true →
      render env ctx key template false =
        .error (.undeclaredJsonVariables (undeclaredMsg tmpl.undeclared template)))
  ∧ (hasNonGlobalUndeclared tmpl = false →
      render env ctx key template false =
        match tmpl.eval ctx with
        | .ok s => .ok s
        | .error e =>
          .error (.other ("error rendering jinja template " ++ template ++ ":" ++ e)))
  ∧ (hasNonGlobalUndeclared tmpl = true ↔
      ∃ v ∈ tmpl.undeclared, GLOBALS_LOOKUP.contains v = false) := by
  have hgate : ∀ b : Bool, hasNonGlobalUndeclared tmpl = b →
      render env ctx key template false =
        (if b then
          .error (.undeclaredJsonVariables (undeclaredMsg tmpl.undeclared template))
        else
          match tmpl.eval ctx with
          | .ok s => .ok s
          | .error e =>
            .error (.other ("error rendering jinja template " ++ template ++ ":" ++ e))) := by
    intro b hb
    simp only [render, hne, if_false, hlook, Bool.not_false, Bool.true_and, hb]
  refine ⟨⟨?_, ?_⟩, ?_, ?_, ?_⟩
  · rintro ⟨m, hm⟩
    by_contra hfalse
    rw [Bool.not_eq_true] at hfalse
    rw [hgate false hfalse] at hm
    rw [if_neg Bool.false_ne_true] at hm
    cases he : tmpl.eval ctx <;> rw [he] at hm <;> simp at hm
  · intro h
    exact ⟨undeclaredMsg tmpl.undeclared template, by rw [hgate true h]; simp⟩
  · intro h
    rw [hgate true h]; simp
  · intro h
    rw [hgate false h]; simp
  · simp only [hasNonGlobalUndeclared, List.any_eq_true, Bool.not_eq_true']

/-- Witness for C2: the gate fires on a template whose undeclared variable
`foo` is not a registered function, and a control-flow template with no
undeclared variables renders to `supersuper` with JSON mode off. -/
theorem render_json_gate_witness :
    render envW ctxNil "T_needs_json_foo" "T_needs_json_foo" false =
        .error (.undeclaredJsonVariables (undeclaredMsg ["foo"] "T_needs_json_foo"))
  ∧ render envW ctxNil "T_supersuper" "T_supersuper" false = .ok "supersuper" := by
  have h1 := (render_json_gate envW ctxNil "T_needs_json_foo" "T_needs_json_foo"
    tmplVarFoo (by decide) rfl).2.1 (by decide)
  have h2 := (render_json_gate envW ctxNil "T_supersuper" "T_supersuper"
    tmplSuper (by decide) rfl).2.2.1 (by decide)
  exact ⟨h1, h2⟩

/-! ## C10 -/

/-- C10: when a body transform in `AsJson` mode is configured and the host
parse returns any non-null value, the context-construction phase reports
`parsed_body_as_json = true` — even for non-object values, for which no
top-level fields are merged into the context (only an object's fields are
inserted) — and with that flag every subsequent `render` call is incapable
of returning the `UndeclaredJsonVariables` error, i.e. the
undeclared-variable safety check is disabled. -/
theorem asjson_nonnull_sets_flag (t : LocalTransform) (bt : BodyTransform)
    (m0 : Ctx) (host : Host) (jb : Json)
    (hbt : t.body = some bt) (hmode : bt.parse_as = .AsJson)
    (hp : host.parseJsonResult = .ok jb) (hnn : jb.isNull = false) :
    (∃ m, jsonSetup t m0 host = .ok (m, true, [.parseJsonBody])
      ∧ (∀ fields, jb = .obj fields →
          m = fields.foldl (fun m' kv => insertKV m' kv.1 kv.2)
            (if strContains bt.value "context()" then
              insertKV m0 STATE_LOOKUP_KEY_CONTEXT jb
            else m0))
      ∧ (jb.isObj = false →
          m = (if strContains bt.value "context()" then
            insertKV m0 STATE_LOOKUP_KEY_CONTEXT jb
          else m0)))
  ∧ (∀ (env : JinjaEnv) (ctx : Ctx) (k tpl m : String),
      render env ctx k tpl true ≠ .error (.undeclaredJsonVariables m)) := by
  constructor
  · simp only [jsonSetup, hbt, hmode, hp, hnn, Bool.false_eq_true, if_false]
    refine ⟨_, rfl, ?_, ?_⟩
    · intro fields hf
      subst hf
      rfl
    · intro hobj
      cases jb <;> simp_all [Json.isObj]
  · intro env ctx k tpl m h
    simp only [render] at h
    split at h
    · simp at h
    · split at h
      · simp at h
      · split at h
        · simp_all
        · split at h <;> simp_all

/-- Witness for C10: a host returning the non-object JSON array `[1]` sets
the flag; with the flag set, the template with undeclared variable `foo`
renders via evaluation instead of failing. -/
theorem asjson_nonnull_sets_flag_witness :
    (∃ m, jsonSetup ⟨[], [], [], some ⟨.AsJson, "T_needs_json_foo"⟩⟩ ctxNil hostArr =
        .ok (m, true, [.parseJsonBody]))
  ∧ render envW ctxNil "T_needs_json_foo" "T_needs_json_foo" true ≠
      .error (.undeclaredJsonVariables (undeclaredMsg ["foo"] "T_needs_json_foo")) := by
  have h := asjson_nonnull_sets_flag ⟨[], [], [], some ⟨.AsJson, "T_needs_json_foo"⟩⟩
    ⟨.AsJson, "T_needs_json_foo"⟩ ctxNil hostArr (.arr [.num 1]) rfl rfl rfl (by decide)
  obtain ⟨⟨m, hm, _, _⟩, hr⟩ := h
  exact ⟨⟨m, hm⟩, hr envW ctxNil "T_needs_json_foo" "T_needs_json_foo" _⟩

/-! ## C7 -/

/-- C7: for a `set` entry, an empty template removes the header with no
render (the outcome is the same for every environment, context and flag); a
successful non-empty render sets the header to the rendered string; a
successful empty render or a recoverable render failure removes the header.
For an `add` entry, an empty template issues no operation, a successful
empty render adds nothing, a recoverable failure adds nothing, and only a
successful non-empty render issues an add-header operation (an
`UndeclaredJsonVariables` failure aborts either loop without issuing an
operation for the entry). -/
theorem set_add_entry_semantics (env : JinjaEnv) (ctx : Ctx) (flag : Bool)
    (name : String) :
    (setStep env ctx flag ⟨name, ""⟩ = .ok ([.removeHeader name], none))
  ∧ (∀ v s, render env ctx v v flag = .ok s → s ≠ "" →
      setStep env ctx flag ⟨name, v⟩ = .ok ([.setHeader name s], none))
  ∧ (∀ v, v ≠ "" → render env ctx v v flag = .ok "" →
      setStep env ctx flag ⟨name, v⟩ = .ok ([.removeHeader name], none))
  ∧ (∀ v m, render env ctx v v flag = .error (.other m) →
      setStep env ctx flag ⟨name, v⟩ = .ok ([.removeHeader name], some (.other m)))
  ∧ (∀ v m, render env ctx v v flag = .error (.undeclaredJsonVariables m) →
      setStep env ctx flag ⟨name, v⟩ = .error (.undeclaredJsonVariables m))
  ∧ (addStep env ctx flag ⟨name, ""⟩ = .ok ([], none))
  ∧ (∀ v s, render env ctx v v flag = .ok s → s ≠ "" →
      addStep env ctx flag ⟨name, v⟩ = .ok ([.addHeader name s], none))
  ∧ (∀ v, v ≠ "" → render env ctx v v flag = .ok "" →
      addStep env ctx flag ⟨name, v⟩ = .ok ([], none))
  ∧ (∀ v m, render env ctx v v flag = .error (.other m) →
      addStep env ctx flag ⟨name, v⟩ = .ok ([], some (.other m)))
  ∧ (∀ v m, render env ctx v v flag = .error (.undeclaredJsonVariables m) →
      addStep env ctx flag ⟨name, v⟩ = .error (.undeclaredJsonVariables m)) := by
  have hrempty : render env ctx "" "" flag = .ok "" := by
    simp [render]
  have hrne : ∀ (v : String) (e : RenderErr),
      render env ctx v v flag = .error e → v ≠ "" := by
    intro v e hr hv
    subst hv
    rw [hrempty] at hr
    simp at hr
  refine ⟨?_, ?_, ?_, ?_, ?_, ?_, ?_, ?_, ?_, ?_⟩
  · simp [setStep]
  · intro v s hr hs
    have hv : v ≠ "" := by
      intro hv
      subst hv
      rw [hrempty] at hr
      injection hr with h'
      exact hs h'.symm
    simp [setStep, hv, hr, hs]
  · intro v hv hr
    simp [setStep, hv, hr]
  · intro v m hr
    simp [setStep, hrne v _ hr, hr]
  · intro v m hr
    simp [setStep, hrne v _ hr, hr]
  · simp [addStep]
  · intro v s hr hs
    have hv : v ≠ "" := by
      intro hv
      subst hv
      rw [hrempty] at hr
      injection hr with h'
      exact hs h'.symm
    simp [addStep, hv, hr, hs]
  · intro v hv hr
    simp [addStep, hv, hr]
  · intro v m hr
    simp [addStep, hrne v _ hr, hr]
  · intro v m hr
    simp [addStep, hrne v _ hr, hr]

/-- Witness for C7: concrete entries against the fixture registry — an
empty `set` template removes, a non-empty render sets, an empty `add`
template is skipped, and a non-empty render adds. -/
theorem set_add_entry_semantics_witness :
    setStep envW ctxNil false ⟨"h", ""⟩ = .ok ([.removeHeader "h"], none)
  ∧ setStep envW ctxNil false ⟨"h", "T_supersuper"⟩ =
      .ok ([.setHeader "h" "supersuper"], none)
  ∧ addStep envW ctxNil false ⟨"a", ""⟩ = .ok ([], none)
  ∧ addStep envW ctxNil false ⟨"a", "T_supersuper"⟩ =
      .ok ([.addHeader "a" "supersuper"], none) := by
  have h := set_add_entry_semantics envW ctxNil false "h"
  have h2 := set_add_entry_semantics envW ctxNil false "a"
  exact ⟨h.1, h.2.1 "T_supersuper" "supersuper" (by decide) (by decide),
    h2.2.2.2.2.2.1, h2.2.2.2.2.2.2.1 "T_supersuper" "supersuper" (by decide) (by decide)⟩

/-! ## C1 -/

/-- C1: in `transform_request` / `transform_response` (the two sides of
`runTransform`), if rendering the template of a `set` entry — or, with the
`set` loop completing, of an `add` entry — fails with the
`UndeclaredJsonVariables` condition, and it is the first entry of its loop
to do so, the function returns exactly that error, and the full operation
trace consists of the context-build and body-rewrite operations plus the
operations of the earlier entries of that loop only: no header is set or
removed for the failing entry, and no host operation is issued for any
later `set`, `add` or `remove` entry. -/
theorem transform_set_add_undeclared_aborts (side : Side) (env : JinjaEnv)
    (t : LocalTransform) (rh resp : List (String × String)) (host : Host)
    (ctx : Ctx) (flag : Bool) (tr0 : List Op)
    (h0 : ctxFlagTrace t (curHeaders side rh resp) rh host = some (ctx, flag, tr0)) :
    (∀ pre p post msg, t.set = pre ++ p :: post →
      (∀ q ∈ pre, ∀ m, render env ctx q.value q.value flag ≠
        .error (.undeclaredJsonVariables m)) →
      render env ctx p.value p.value flag = .error (.undeclaredJsonVariables msg) →
      runTransform side env t rh resp host =
        (tr0 ++ (bodyRewrite env ctx flag t (bodyKeyOf side)).1
           ++ pre.flatMap (stepOps (setStep env ctx flag)),
         .error (.undeclaredJsonVariables msg)))
  ∧ (∀ s_ops s_errs pre p post msg,
      setLoop env ctx flag t.set = .ok s_ops s_errs →
      t.add = pre ++ p :: post →
      (∀ q ∈ pre, ∀ m, render env ctx q.value q.value flag ≠
        .error (.undeclaredJsonVariables m)) →
      render env ctx p.value p.value flag = .error (.undeclaredJsonVariables msg) →
      runTransform side env t rh resp host =
        (tr0 ++ (bodyRewrite env ctx flag t (bodyKeyOf side)).1 ++ s_ops
           ++ pre.flatMap (stepOps (addStep env ctx flag)),
         .error (.undeclaredJsonVariables msg))) := by
  have hrun := runTransform_eq side env t rh resp host
  have hcore := transformCore_of_ctx env t (curHeaders side rh resp) rh
    (bodyKeyOf side) (labelOf side) host ctx flag tr0 h0
  constructor
  · intro pre p post msg hsplit hpre hp
    have habort : setLoop env ctx flag t.set =
        .abort (pre.flatMap (stepOps (setStep env ctx flag)))
          (.undeclaredJsonVariables msg) := by
      rw [hsplit]
      exact runLoop_abort _ pre p post _
        (fun q hq => setStep_ok_of_noUndeclared env ctx flag q (hpre q hq))
        (setStep_err_of_undeclared env ctx flag p msg hp)
    rw [hrun, hcore, habort]
  · intro s_ops s_errs pre p post msg hset hsplit hpre hp
    have habort : addLoop env ctx flag t.add =
        .abort (pre.flatMap (stepOps (addStep env ctx flag)))
          (.undeclaredJsonVariables msg) := by
      rw [hsplit]
      exact runLoop_abort _ pre p post _
        (fun q hq => addStep_ok_of_noUndeclared env ctx flag q (hpre q hq))
        (addStep_err_of_undeclared env ctx flag p msg hp)
    rw [hrun, hcore, hset, habort]

/-- tAbortSet is a transform whose only `set` entry needs the JSON body
while no JSON parsing is requested. -/
def tAbortSet : LocalTransform := ⟨[], [⟨"h", "T_needs_json_foo"⟩], [], none⟩

/-- Witness for C1: the JSON-gated `set` entry makes `transform_request`
return the distinguished error with an empty operation trace. -/
theorem transform_set_add_undeclared_aborts_witness :
    transform_request envW tAbortSet [] hostNull =
      ([], .error (.undeclaredJsonVariables (undeclaredMsg ["foo"] "T_needs_json_foo"))) := by
  have h := (transform_set_add_undeclared_aborts .request envW tAbortSet [] [] hostNull
      ctxNil false [] rfl).1 [] ⟨"h", "T_needs_json_foo"⟩ []
      (undeclaredMsg ["foo"] "T_needs_json_foo") rfl (by simp) (by decide)
  exact h.trans (by decide)

/-! ## C3 -/

/-- C3: with a configured body transform of non-empty template text (and the
context-build phase succeeding), the body rewrite drains the body and then:
on a successful non-empty render sets `content-length` to the decimal byte
length of the rendered string and appends the rendered bytes; on a
successful empty render, or on any render failure (the failure being
recorded), sets `content-length` to "0" and removes `content-type`; and a
body render failure does not prevent the subsequent `set`/`add`/`remove`
header processing of `transform_request` / `transform_response`. -/
theorem body_rewrite_semantics (side : Side) (env : JinjaEnv)
    (t : LocalTransform) (rh resp : List (String × String)) (host : Host)
    (bt : BodyTransform) (ctx : Ctx) (flag : Bool) (tr0 : List Op)
    (hbt : t.body = some bt) (hval : bt.value ≠ "")
    (h0 : ctxFlagTrace t (curHeaders side rh resp) rh host = some (ctx, flag, tr0)) :
    (∀ s, render env ctx (bodyKeyOf side) bt.value flag = .ok s → s ≠ "" →
      bodyRewrite env ctx flag t (bodyKeyOf side) =
        ([.drainBody USIZE_MAX,
          .setHeader "content-length" (toString (byteLen s)), .appendBody s], []))
  ∧ (render env ctx (bodyKeyOf side) bt.value flag = .ok "" →
      bodyRewrite env ctx flag t (bodyKeyOf side) =
        ([.drainBody USIZE_MAX, .setHeader "content-length" "0",
          .removeHeader "content-type"], []))
  ∧ (∀ e, render env ctx (bodyKeyOf side) bt.value flag = .error e →
      bodyRewrite env ctx flag t (bodyKeyOf side) =
        ([.drainBody USIZE_MAX, .setHeader "content-length" "0",
          .removeHeader "content-type"], [e]))
  ∧ (∀ e s_ops s_errs a_ops a_errs,
      render env ctx (bodyKeyOf side) bt.value flag = .error e →
      setLoop env ctx flag t.set = .ok s_ops s_errs →
      addLoop env ctx flag t.add = .ok a_ops a_errs →
      runTransform side env t rh resp host =
        (tr0 ++ [.drainBody USIZE_MAX, .setHeader "content-length" "0",
            .removeHeader "content-type"] ++ s_ops ++ a_ops
           ++ t.remove.map Op.removeHeader,
         combine_errors (labelOf side) (e :: (s_errs ++ a_errs)))) := by
  have hbrerr : ∀ e, render env ctx (bodyKeyOf side) bt.value flag = .error e →
      bodyRewrite env ctx flag t (bodyKeyOf side) =
        ([.drainBody USIZE_MAX, .setHeader "content-length" "0",
          .removeHeader "content-type"], [e]) := by
    intro e hr
    simp only [bodyRewrite, hbt, if_neg hval, hr]
  refine ⟨?_, ?_, hbrerr, ?_⟩
  · intro s hr hs
    simp only [bodyRewrite, hbt, if_neg hval, hr, if_neg hs]
  · intro hr
    simp [bodyRewrite, hbt, hval, hr]
  · intro e s_ops s_errs a_ops a_errs hr hset hadd
    rw [runTransform_eq,
      transformCore_of_ctx env t (curHeaders side rh resp) rh (bodyKeyOf side)
        (labelOf side) host ctx flag tr0 h0, hset, hadd, hbrerr e hr]
    simp [List.append_assoc]

/-- tBody is a transform with only an `AsString` body template. -/
def tBody : LocalTransform := ⟨[], [], [], some ⟨.AsString, "T_body_hello"⟩⟩

/-- Witness for C3: the body template renders to `hello`, so the rewrite
drains, sets `content-length: 5` and appends the rendered bytes. -/
theorem body_rewrite_semantics_witness :
    bodyRewrite envW ctxNil false tBody (bodyKeyOf .request) =
      ([.drainBody USIZE_MAX, .setHeader "content-length" "5",
        .appendBody "hello"], []) := by
  have h := (body_rewrite_semantics .request envW tBody [] [] hostNull
      ⟨.AsString, "T_body_hello"⟩ ctxNil false [] rfl (by decide) rfl).1
      "hello" (by decide) (by decide)
  exact h.trans (by decide)

/-! ## C8 -/

/-- C8: for every non-aborting orchestration of `transform_request` /
`transform_response`, the operation trace is exactly the context-build
operations, then the body-rewrite operations, then the operations of every
`set` entry in list order, then of every `add` entry in list order, then
one unconditional remove-header operation per `remove` entry in list order
(issued regardless of what any earlier `set`/`add` entry did), and the
result aggregates the recorded recoverable errors. -/
theorem operation_order (side : Side) (env : JinjaEnv) (t : LocalTransform)
    (rh resp : List (String × String)) (host : Host)
    (ctx : Ctx) (flag : Bool) (tr0 : List Op)
    (s_ops a_ops : List Op) (s_errs a_errs : List RenderErr)
    (h0 : ctxFlagTrace t (curHeaders side rh resp) rh host = some (ctx, flag, tr0))
    (hset : setLoop env ctx flag t.set = .ok s_ops s_errs)
    (hadd : addLoop env ctx flag t.add = .ok a_ops a_errs) :
    runTransform side env t rh resp host =
      (tr0 ++ (bodyRewrite env ctx flag t (bodyKeyOf side)).1 ++ s_ops ++ a_ops
         ++ t.remove.map Op.removeHeader,
       combine_errors (labelOf side)
         ((bodyRewrite env ctx flag t (bodyKeyOf side)).2 ++ s_errs ++ a_errs))
  ∧ s_ops = t.set.flatMap (stepOps (setStep env ctx flag))
  ∧ a_ops = t.add.flatMap (stepOps (addStep env ctx flag)) := by
  refine ⟨?_, runLoop_ok_ops _ t.set s_ops s_errs hset,
    runLoop_ok_ops _ t.add a_ops a_errs hadd⟩
  rw [runTransform_eq,
    transformCore_of_ctx env t (curHeaders side rh resp) rh (bodyKeyOf side)
      (labelOf side) host ctx flag tr0 h0, hset, hadd]

/-- tOk is a transform exercising all four phases without any failure. -/
def tOk : LocalTransform :=
  ⟨[⟨"a", "T_supersuper"⟩], [⟨"s", "T_supersuper"⟩, ⟨"e", ""⟩], ["r"], none⟩

/-- Witness for C8: the concrete trace is set, set-empty removal, add,
remove — in exactly that order. -/
theorem operation_order_witness :
    transform_request envW tOk [] hostNull =
      ([.setHeader "s" "supersuper", .removeHeader "e",
        .addHeader "a" "supersuper", .removeHeader "r"], .ok ()) := by
  have h := operation_order .request envW tOk [] [] hostNull ctxNil false []
      [.setHeader "s" "supersuper", .removeHeader "e"] [.addHeader "a" "supersuper"]
      [] [] rfl (by decide) (by decide)
  exact h.1.trans (by decide)

/-! ## C9 -/

/-- C9: a transform whose `add`, `set` and `remove` lists are empty and
whose body transform is absent or has empty template text in `AsString`
mode is detected as empty by `LocalTransform.is_empty` (so the filter's
`has_transform` check skips it), and running either orchestration on it
issues zero host operations and succeeds. -/
theorem empty_transform_no_ops (side : Side) (env : JinjaEnv)
    (t : LocalTransform) (rh resp : List (String × String)) (host : Host)
    (hadd : t.add = []) (hset : t.set = []) (hrem : t.remove = [])
    (hbody : t.body = none ∨ t.body = some ⟨.AsString, ""⟩) :
    t.is_empty = true ∧ has_transform (some t) = false ∧
    runTransform side env t rh resp host = ([], .ok ()) := by
  have hemp : t.is_empty = true := by
    rcases hbody with h | h <;>
      simp [LocalTransform.is_empty, hadd, hset, hrem, h, BodyTransform.is_empty]
  refine ⟨hemp, by simp [has_transform, hemp], ?_⟩
  rw [runTransform_eq]
  have hc : strContains "" "body()" = false := by decide
  rcases hbody with h | h <;>
    simp [transformCore, jsonSetup, bodySetup, bodyRewrite, hadd, hset, hrem, h,
      hc, setLoop, addLoop, runLoop, combine_errors]

/-- tEmptyB is a transform with an empty `AsString` body template and no
header entries. -/
def tEmptyB : LocalTransform := ⟨[], [], [], some ⟨.AsString, ""⟩⟩

/-- Witness for C9: the empty transform is detected and
`transform_request` issues no operation. -/
theorem empty_transform_no_ops_witness :
    LocalTransform.is_empty tEmptyB = true ∧
    transform_request envW tEmptyB [] hostNull = ([], .ok ()) := by
  have h := empty_transform_no_ops .request envW tEmptyB [] [] hostNull
    rfl rfl rfl (.inr rfl)
  exact ⟨h.1, h.2.2⟩


/-! ## C4 and C5: substring -/

theorem charsByteLen_append (l1 l2 : List Char) :
    charsByteLen (l1 ++ l2) = charsByteLen l1 + charsByteLen l2 := by
  simp [charsByteLen]

theorem dropBytes_cons (c : Char) (cs : List Char) (n : Nat)
    (hc : c.utf8Size <= n) :
    dropBytes (c :: cs) n = dropBytes cs (n - c.utf8Size) := by
  obtain ⟨m, rfl⟩ : ∃ m, n = m + 1 :=
    ⟨n - 1, by have := Char.utf8Size_pos c; omega⟩
  simp only [dropBytes, if_pos hc]

theorem takeBytes_cons (c : Char) (cs : List Char) (n : Nat)
    (hc : c.utf8Size <= n) :
    takeBytes (c :: cs) n = (takeBytes cs (n - c.utf8Size)).map (c :: ·) := by
  obtain ⟨m, rfl⟩ : ∃ m, n = m + 1 :=
    ⟨n - 1, by have := Char.utf8Size_pos c; omega⟩
  simp only [takeBytes, if_pos hc]

theorem dropBytes_of_split :
    ∀ (pre suf : List Char), dropBytes (pre ++ suf) (charsByteLen pre) = some suf
  | [], suf => by
    have h0 : charsByteLen ([] : List Char) = 0 := rfl
    rw [List.nil_append, h0]
    cases suf <;> rfl
  | c :: pre, suf => by
    have hpos := Char.utf8Size_pos c
    have hlen : charsByteLen (c :: pre) = c.utf8Size + charsByteLen pre := by
      simp [charsByteLen]
    rw [List.cons_append, hlen, dropBytes_cons c (pre ++ suf) _ (by omega),
      Nat.add_sub_cancel_left]
    exact dropBytes_of_split pre suf

theorem takeBytes_of_split :
    ∀ (mid rest : List Char), takeBytes (mid ++ rest) (charsByteLen mid) = some mid
  | [], rest => by
    have h0 : charsByteLen ([] : List Char) = 0 := rfl
    rw [List.nil_append, h0]
    cases rest <;> rfl
  | c :: mid, rest => by
    have hpos := Char.utf8Size_pos c
    have hlen : charsByteLen (c :: mid) = c.utf8Size + charsByteLen mid := by
      simp [charsByteLen]
    rw [List.cons_append, hlen, takeBytes_cons c (mid ++ rest) _ (by omega),
      Nat.add_sub_cancel_left, takeBytes_of_split mid rest]
    rfl

theorem byteSlice_of_split (s : String) (pre mid post : List Char)
    (hs : s.data = pre ++ mid ++ post) :
    byteSlice s (charsByteLen pre) (charsByteLen pre + charsByteLen mid) =
      some (String.mk mid) := by
  have hd : dropBytes s.data (charsByteLen pre) = some (mid ++ post) := by
    rw [hs, List.append_assoc]
    exact dropBytes_of_split pre (mid ++ post)
  have ht : takeBytes (mid ++ post) (charsByteLen mid) = some mid :=
    takeBytes_of_split mid post
  simp only [byteSlice, if_pos (Nat.le_add_right _ _), hd,
    Nat.add_sub_cancel_left, ht]

/-- Amended C4: provided the byte indices involved fall on UTF-8 character
boundaries — a byte index is a boundary of `s` exactly when it is the byte
length of some character-list prefix of `s.data`, which is automatic for
ASCII strings — and `start + len` does not overflow the machine word,
`substring` returns the byte range `[start, start+len)` clipped to the
string's bounds: empty when `start` is at or past the byte length, the
slice extending to the end of the string when the length is omitted or
`start + len` exceeds the byte length. On a non-boundary index, or on an
overflowing `start + len`, the Rust slice operation panics instead of
returning. -/
theorem substring_clipping_boundaries (s : String)
    (hW : byteLen s < USIZE_WRAP) :
    (∀ start len, start ≥ byteLen s → substring s start len = some "")
  ∧ (∀ start pre suf, s.data = pre ++ suf → charsByteLen pre = start →
      start < byteLen s → substring s start none = some (String.mk suf))
  ∧ (∀ start l pre mid post, s.data = pre ++ mid ++ post →
      charsByteLen pre = start → charsByteLen mid = l →
      start < byteLen s → substring s start (some l) = some (String.mk mid))
  ∧ (∀ start l pre suf, s.data = pre ++ suf → charsByteLen pre = start →
      start < byteLen s → byteLen s < start + l → start + l < USIZE_WRAP →
      substring s start (some l) = some (String.mk suf)) := by
  have hfull : ∀ start pre suf, s.data = pre ++ suf → charsByteLen pre = start →
      byteSlice s start (byteLen s) = some (String.mk suf) := by
    intro start pre suf hs hpre
    have htot : byteLen s = start + charsByteLen suf := by
      simp only [byteLen, hs, charsByteLen_append, hpre]
    rw [htot, ← hpre]
    exact byteSlice_of_split s pre suf [] (by rw [hs, List.append_nil])
  refine ⟨?_, ?_, ?_, ?_⟩
  · intro start len hge
    simp [substring, hge]
  · intro start pre suf hs hpre hlt
    simp only [substring, if_neg (by omega : ¬ start ≥ byteLen s)]
    exact hfull start pre suf hs hpre
  · intro start l pre mid post hs hpre hmid hlt
    have hle : start + l ≤ byteLen s := by
      simp only [byteLen, hs, charsByteLen_append, hpre, hmid]
      omega
    have hmod : (start + l) % USIZE_WRAP = start + l := Nat.mod_eq_of_lt (by omega)
    simp only [substring, if_neg (by omega : ¬ start ≥ byteLen s), hmod,
      if_pos hle]
    rw [← hpre, ← hmid]
    exact byteSlice_of_split s pre mid post hs
  · intro start l pre suf hs hpre hlt hgt hw
    have hmod : (start + l) % USIZE_WRAP = start + l := Nat.mod_eq_of_lt hw
    simp only [substring, if_neg (by omega : ¬ start ≥ byteLen s), hmod,
      if_neg (by omega : ¬ start + l ≤ byteLen s)]
    exact hfull start pre suf hs hpre

/-- Witness for C4 (amended): the spec's own examples, plus a multi-byte
string sliced at character boundaries, via the amended theorem. -/
theorem substring_clipping_boundaries_witness :
    substring "ENVOYPROXY something" 5 (some 5) = some "PROXY"
  ∧ substring "ENVOYPROXY something" 5 none = some "PROXY something"
  ∧ substring "ENVOYPROXY something" 25 none = some ""
  ∧ substring "aé" 1 (some 2) = some "é" := by
  have h := substring_clipping_boundaries "ENVOYPROXY something" (by decide)
  have h2 := substring_clipping_boundaries "aé" (by decide)
  refine ⟨?_, ?_, ?_, ?_⟩
  · exact (h.2.2.1 5 5 "ENVOY".data "PROXY".data " something".data (by decide)
      (by decide) (by decide) (by decide)).trans (by decide)
  · exact (h.2.1 5 "ENVOY".data "PROXY something".data (by decide) (by decide)
      (by decide)).trans (by decide)
  · exact h.1 25 none (by decide)
  · exact (h2.2.2.1 1 2 "a".data "é".data [] (by decide) (by decide) (by decide)
      (by decide)).trans (by decide)

/-- Counterexample to C4 as stated: at the multi-byte string `é` (byte
length 2) with start index 1, the claimed clipped byte range `[1, 2)` is
not returned — the Rust byte-slice panics because index 1 is not a
character boundary (`none` in the model). -/
theorem substring_nonascii_counterexample :
    substring "é" 1 none = none ∧ byteLen "é" = 2 := by decide

/-- C5 evaluated at a failing input: with `start = 5` inside the ASCII
string `abcdef` and `len = 2^64 - 4`, the `usize` sum `start + len` wraps
to 1, producing the inverted byte range `[5, 1)` on which the Rust slice
operation panics (a debug build already panics at the overflowing
addition), so `substring` is not total, contradicting the claim that it
never raises. -/
theorem substring_overflow_panics :
    substring "abcdef" 5 (some (USIZE_WRAP - 4)) = none
  ∧ 5 < byteLen "abcdef" := by decide

/-! ## C6: header lookup -/

theorem deser_headersJson :
    ∀ (hm : List (String × String)),
      deserializeStringMap (headersJson hm) = some hm
  | [] => rfl
  | p :: hm => by
    have ih := deser_headersJson hm
    simp only [headersJson, deserializeStringMap, List.map_cons,
      List.foldr_cons] at ih ⊢
    rw [ih]

/-- ciLookup is modelled from the spec's words ("case-insensitive lookup
... return the stored value for any name differing only in ASCII case from
a key present in the map"): the first entry whose key equals the queried
name up to ASCII case. It is the spec-side definition compared against the
code's `lookup_header`. -/
def ciLookup (hm : List (String × String)) (key : String) : Option String :=
  (hm.find? fun p => strToLower p.1 == strToLower key).map (fun p => p.2)

theorem lookup_eq_ciLookup :
    ∀ (hm : List (String × String)) (key : String),
      (∀ p ∈ hm, strToLower p.1 = p.1) →
      List.lookup (strToLower key) hm = ciLookup hm key
  | [], _, _ => rfl
  | (k, v) :: hm, key, hlow => by
    have hk : strToLower k = k := hlow (k, v) (by simp)
    have ih := lookup_eq_ciLookup hm key (fun p hp => hlow p (by simp [hp]))
    by_cases h : strToLower key = k
    · simp [List.lookup, ciLookup, List.find?, hk, h]
    · have h1 : (strToLower key == k) = false := by simpa using h
      have h2 : (k == strToLower key) = false := by
        simpa using fun e => h e.symm
      simp [List.lookup, ciLookup, List.find?, hk, h1, h2, ih]

/-- Amended C6: `header` / `request_header` lowercase the queried name and
look it up verbatim, so the lookup is case-insensitive in the queried name
exactly when the stored keys are lowercase: for a headers map whose keys
are (ASCII-)lowercase the result agrees with the spec's case-insensitive
lookup `ciLookup` (empty when no key matches up to case), and the empty
string is returned when the headers slot is absent from the context or its
value cannot be interpreted as a string-to-string map. A stored key with an
uppercase letter is not found even by the verbatim name
(`header_case_counterexample`). -/
theorem header_lookup_lowercase :
    (∀ (hm : List (String × String)) (key : String) (ctx : Ctx),
      ctxLookup ctx STATE_LOOKUP_KEY_HEADERS = some (headersJson hm) →
      (∀ p ∈ hm, strToLower p.1 = p.1) →
      header ctx key = (ciLookup hm key).getD "")
  ∧ (∀ (hm : List (String × String)) (key : String) (ctx : Ctx),
      ctxLookup ctx STATE_LOOKUP_KEY_REQ_HEADERS = some (headersJson hm) →
      (∀ p ∈ hm, strToLower p.1 = p.1) →
      request_header ctx key = (ciLookup hm key).getD "")
  ∧ (∀ (key : String) (ctx : Ctx),
      ctxLookup ctx STATE_LOOKUP_KEY_HEADERS = none → header ctx key = "")
  ∧ (∀ (key : String) (ctx : Ctx) (v : Json),
      ctxLookup ctx STATE_LOOKUP_KEY_HEADERS = some v →
      deserializeStringMap v = none → header ctx key = "") := by
  refine ⟨?_, ?_, ?_, ?_⟩
  · intro hm key ctx hctx hlow
    rw [header, hctx, lookup_header, deser_headersJson hm]
    simp only
    rw [lookup_eq_ciLookup hm key hlow]
  · intro hm key ctx hctx hlow
    rw [request_header, hctx, lookup_header, deser_headersJson hm]
    simp only
    rw [lookup_eq_ciLookup hm key hlow]
  · intro key ctx hctx
    rw [header, hctx, lookup_header]
  · intro key ctx v hctx hv
    rw [header, hctx, lookup_header, hv]

/-- Witness for C6 (amended): with the lowercase stored key `x-donor`, the
uppercase query `X-Donor` finds `thedonorvalue`, matching the
case-insensitive spec lookup. -/
theorem header_lookup_lowercase_witness :
    header [(STATE_LOOKUP_KEY_HEADERS, headersJson [("x-donor", "thedonorvalue")])]
      "X-Donor" = "thedonorvalue" := by
  have h := header_lookup_lowercase.1 [("x-donor", "thedonorvalue")] "X-Donor"
    [(STATE_LOOKUP_KEY_HEADERS, headersJson [("x-donor", "thedonorvalue")])]
    rfl (by decide)
  exact h.trans (by decide)

/-- Counterexample to C6 as stated: the stored key `X-Donor` is present and
the queried name `X-Donor` differs from it in no character at all, yet the
lookup returns the empty string rather than the stored value, because the
code lowercases only the queried name and the map lookup is verbatim. -/
theorem header_case_counterexample :
    header [(STATE_LOOKUP_KEY_HEADERS, headersJson [("X-Donor", "thedonorvalue")])]
      "X-Donor" = ""
  ∧ ("" : String) ≠ "thedonorvalue" := by decide

end Transformations
